import Mathlib

/-!
Verification of the Orlando Experience RAG core against its specification.

The Python sources are shallowly embedded: pure functions become Lean
functions over `String` / `List Char`, Python floats become `ℚ`, Python
dicts with possibly-missing keys become records of `Option String`, and
fallible file access becomes `Option` / `Except`.
-/

namespace Orlando

/-! ## Python string primitives -/

/-- The six characters of Python's `\s` class (ASCII scope). -/
def pyIsSpace (c : Char) : Bool :=
  c = ' ' || c = '\t' || c = '\n' || c = '\r' || c = '\x0b' || c = '\x0c'

/-- Helper for `pySplit`: accumulate the current word (reversed) while
scanning; flush it at each whitespace run. -/
def splitWsAux : List Char → List Char → List String
  | [], acc => if acc = [] then [] else [String.mk acc.reverse]
  | c :: cs, acc =>
    if pyIsSpace c then
      if acc = [] then splitWsAux cs []
      else String.mk acc.reverse :: splitWsAux cs []
    else splitWsAux cs (c :: acc)

/-- Python `str.split()` with no argument: split on runs of whitespace,
dropping empty pieces. -/
def pySplit (s : String) : List String := splitWsAux s.toList []

/-- Python `str.strip()`: drop leading and trailing whitespace. -/
def pyStrip (s : String) : String :=
  String.mk (((s.toList.dropWhile pyIsSpace).reverse.dropWhile pyIsSpace).reverse)

/-- Python `" ".join(l)` (general `sep.join(l)`). -/
def pyJoin (sep : String) : List String → String
  | [] => ""
  | x :: xs => xs.foldl (fun acc y => acc ++ sep ++ y) x

/-- Python `range(0, stop, step)` for a positive `step`. -/
def pyRangeStep (stop step : Nat) : List Nat :=
  (List.range ((stop + step - 1) / step)).map (fun i => i * step)

/-! ## Chunker (`simple_token_split`, identical in
`04_build_auxiliary_layers.py` and `06_rebuild_core_factual_index.py`) -/

/-- The word windows `words[i:i + chunk_size]` for
`i in range(0, len(words), chunk_size - overlap)`. -/
def chunkWords (words : List String) (chunk_size overlap : Nat) : List (List String) :=
  (pyRangeStep words.length (chunk_size - overlap)).map
    (fun i => (words.drop i).take chunk_size)

/-- `simple_token_split(text, chunk_size=512, overlap=50)`. -/
def simple_token_split (text : String) (chunk_size : Nat := 512) (overlap : Nat := 50) :
    List String :=
  let words := pySplit text
  if words.length ≤ chunk_size then [text]
  else (chunkWords words chunk_size overlap).map (fun ws => pyJoin " " ws)

/-! ## More Python string primitives -/

/-- `needle` is a leading segment of `hay` (Python `str.startswith`). -/
def isPre : List Char → List Char → Bool
  | [], _ => true
  | _ :: _, [] => false
  | a :: as, b :: bs => a = b && isPre as bs

/-- Python's substring containment `needle in hay`. -/
def subStr (needle : List Char) : List Char → Bool
  | [] => isPre needle []
  | c :: cs => isPre needle (c :: cs) || subStr needle cs

/-- `a in b` on strings. -/
def pyIn (needle hay : String) : Bool := subStr needle.toList hay.toList

/-- One pass of Python `hay.replace(pat, '')` for a non-empty `pat`:
scan left to right, deleting each non-overlapping occurrence of `pat`
(the scan continues after the deleted occurrence, so text re-formed at a
deletion seam is not rescanned, exactly as in CPython). Fuel is the length
of the remaining text. -/
def removeAllAux (pat : List Char) : Nat → List Char → List Char
  | 0, _ => []
  | _ + 1, [] => []
  | fuel + 1, c :: cs =>
    if isPre pat (c :: cs) then removeAllAux pat fuel ((c :: cs).drop pat.length)
    else c :: removeAllAux pat fuel cs

/-- Python `s.replace(pat, '')` (no-op for an empty pattern, which the
tokenizer never produces). -/
def removeAll (s pat : String) : String :=
  if pat.toList = [] then s
  else String.mk (removeAllAux pat.toList s.toList.length s.toList)

/-- Python `str.lower()` (ASCII scope). -/
def pyLower (s : String) : String := String.mk (s.toList.map Char.toLower)

/-! ## Grounding tokenizer (`src/validate/grounding_check.py`, `_tokenize`) -/

/-- Does the text start with a full five-character time match
`\d{2}[:h]\d{2}` (the greedy branch of `\d{1,2}[:h]\d{2}`)? -/
def m5 : List Char → Bool
  | d1 :: d2 :: s :: r1 :: r2 :: _ =>
    d1.isDigit && d2.isDigit && (s = ':' || s = 'h') && r1.isDigit && r2.isDigit
  | _ => false

/-- Does the text start with a four-character time match `\d[:h]\d{2}`
(the backtracked branch of `\d{1,2}[:h]\d{2}`)? -/
def m4 : List Char → Bool
  | d1 :: s :: r1 :: r2 :: _ =>
    d1.isDigit && (s = ':' || s = 'h') && r1.isDigit && r2.isDigit
  | _ => false

/-- `re.findall(r'\d{1,2}[:h]\d{2}', text)`: left-to-right, non-overlapping,
greedy on the leading digit count. Fuel is the length of the text. -/
def timeScanAux : Nat → List Char → List (List Char)
  | 0, _ => []
  | _ + 1, [] => []
  | fuel + 1, c :: cs =>
    if m5 (c :: cs) then (c :: cs).take 5 :: timeScanAux fuel ((c :: cs).drop 5)
    else if m4 (c :: cs) then (c :: cs).take 4 :: timeScanAux fuel ((c :: cs).drop 4)
    else timeScanAux fuel cs

/-- All time-of-day matches found in a string, in order. -/
def timeMatches (s : String) : List String :=
  (timeScanAux s.toList.length s.toList).map String.mk

/-- `time_str.replace('h', ':')` followed by the `time_` prefix. -/
def mkTimeToken (m : String) : String :=
  "time_" ++ String.mk (m.toList.map (fun c => if c = 'h' then ':' else c))

/-- The `lower_text` left after the loop removed every matched time string
(`lower_text = lower_text.replace(time_str, '')` per match). -/
def timeResidual (text : String) : String :=
  (timeMatches (pyLower text)).foldl removeAll (pyLower text)

/-- Python `\w` for ASCII: alphanumeric or underscore. -/
def isWordChar (c : Char) : Bool := c.isAlphanum || c = '_'

/-- `re.sub(r'[^\w\s]', '', t)`: drop every character that is neither a
word character nor whitespace. -/
def stripPunct (s : String) : String :=
  String.mk (s.toList.filter (fun c => isWordChar c || pyIsSpace c))

/-- `_tokenize(text)`: typed `time_…` tokens for every time-of-day match of
the lowercased text, united with the plain whitespace-split tokens of the
punctuation-stripped residual. -/
def pyTokenize (text : String) : Finset String :=
  ((timeMatches (pyLower text)).map mkTimeToken).toFinset ∪
    (pySplit (stripPunct (timeResidual text))).toFinset

/-! ## Grounding score (`check_grounding`) -/

/-- Round to the nearest integer, ties to the even neighbour (the IEEE /
Python `round` rule), via the computable `Rat.floor`. -/
def pyRoundInt (y : ℚ) : ℤ :=
  if y - Rat.floor y < 1/2 then Rat.floor y
  else if 1/2 < y - Rat.floor y then Rat.floor y + 1
  else if Rat.floor y % 2 = 0 then Rat.floor y else Rat.floor y + 1

/-- Python `round(x, 4)` (round half to even), on the embedding of floats
as rationals. -/
def pyRound4 (x : ℚ) : ℚ :=
  (pyRoundInt (x * 10000) : ℚ) / 10000

/-- `check_grounding(query, context_list, response)`: Jaccard index of the
token sets of the joined contexts and of the response, rounded to four
decimal places; `0.0` on empty context list, empty response, or empty
token union. -/
def check_grounding (query : String) (context_list : List String) (response : String) : ℚ :=
  if context_list = [] ∨ response = "" then 0
  else
    let combined_context := pyJoin " " context_list
    let context_tokens := pyTokenize combined_context
    let response_tokens := pyTokenize response
    let inter := context_tokens ∩ response_tokens
    let union := context_tokens ∪ response_tokens
    if union = ∅ then 0
    else pyRound4 ((inter.card : ℚ) / (union.card : ℚ))

/-! ## Atomic-fact extraction (`07_parse_core_atomic.py`) -/

/-- Collapse every whitespace run to a single space
(`re.sub(r"\s+", " ", ·)`, on already-stripped text). Fuel is the length of
the remaining text (each step consumes at least one character). -/
def collapseWsAux : Nat → List Char → List Char
  | 0, _ => []
  | _ + 1, [] => []
  | fuel + 1, c :: cs =>
    if pyIsSpace c then ' ' :: collapseWsAux fuel (cs.dropWhile pyIsSpace)
    else c :: collapseWsAux fuel cs

/-- `re.sub(r"\s+", " ", text.strip())`: the whitespace normalization at the
top of `extract_atomic_facts`. -/
def pyNormWs (s : String) : String :=
  String.mk (collapseWsAux (pyStrip s).toList.length (pyStrip s).toList)

/-- A sentence-terminating character, `[.!?]`. -/
def isSentEnd (c : Char) : Bool := c = '.' || c = '!' || c = '?'

/-- Is the previously scanned character (head of the reversed accumulator) a
sentence terminator? -/
def headSentEnd : List Char → Bool
  | [] => false
  | p :: _ => isSentEnd p

/-- `re.split(r"(?<=[.!?])\s+", text)`: cut before each whitespace run that
immediately follows a sentence terminator, consuming the whole run. Fuel is
the length of the remaining text. -/
def splitSentAux : Nat → List Char → List Char → List (List Char)
  | 0, _, acc => [acc.reverse]
  | _ + 1, [], acc => [acc.reverse]
  | fuel + 1, c :: cs, acc =>
    if pyIsSpace c && headSentEnd acc then
      acc.reverse :: splitSentAux fuel (cs.dropWhile pyIsSpace) []
    else splitSentAux fuel cs (c :: acc)

/-- `[s.strip() for s in re.split(r"(?<=[.!?])\s+", text) if s.strip()]`. -/
def sentences (t : String) : List String :=
  ((splitSentAux t.toList.length t.toList []).map (fun l => pyStrip (String.mk l))).filter
    (fun s => s ≠ "")

/-- An atomic fact record as emitted by `extract_atomic_facts`. The Python
dict key `"attribute"` is a Lean keyword, hence the field name `attr`. -/
structure AtomicFact where
  entity : String
  attr : String
  value : String
  source_document : String
  year_or_season : String
  text : String
deriving DecidableEq

/-- Try the pattern `lit([^,]+)` at the head of the text: `lit` literally,
then a non-empty greedy run of non-comma characters. -/
def capAt (lit cs : List Char) : Option (List Char) :=
  if isPre lit cs then
    let cap := (cs.drop lit.length).takeWhile (fun c => c ≠ ',')
    if cap = [] then none else some cap
  else none

/-- `re.search` for `lit([^,]+)`: leftmost position where the pattern
matches; returns the captured group. -/
def searchCap (lit : List Char) : List Char → Option (List Char)
  | [] => capAt lit []
  | c :: cs =>
    match capAt lit (c :: cs) with
    | some cap => some cap
    | none => searchCap lit cs

/-- The `park_rules` table: entity label and the literal part of its
pattern `r"<literal>([^,]+)"` (regex escapes resolved). -/
def park_rules : List (String × String) :=
  [("Magic Kingdom", "Magic Kingdom: "),
   ("EPCOT", "EPCOT: "),
   ("Hollywood Studios", "Hollywood Studios: "),
   ("Animal Kingdom", "Animal Kingdom: "),
   ("Typhoon Lagoon", "Typhoon Lagoon: "),
   ("Blizzard Beach", "Blizzard Beach: "),
   ("Universal Studios Florida", "Universal Studios Florida: "),
   ("Islands of Adventure", "Islands of Adventure: "),
   ("Universal Volcano Bay", "Universal Volcano Bay: "),
   ("SeaWorld Orlando", "SeaWorld Orlando: "),
   ("Aquatica Orlando", "Aquatica Orlando: "),
   ("Busch Gardens Tampa", "Busch Gardens Tampa: "),
   ("LEGOLAND Florida", "LEGOLAND Florida (Winter Haven): "),
   ("Peppa Pig Theme Park", "Peppa Pig Theme Park: ")]

/-- An operating-hours fact for one park. -/
def mkHoursFact (park hours source : String) : AtomicFact :=
  { entity := park, attr := "operating_hours", value := hours,
    source_document := source, year_or_season := "December 2025",
    text := park ++ " operating hours during December 2025: " ++ hours ++ "." }

/-- The hand-coded Early Entry fact. -/
def earlyEntryFact (source : String) : AtomicFact :=
  { entity := "Walt Disney World Resort", attr := "early_entry_rule",
    value := "30 minutes before official opening for Disney hotel guests",
    source_document := source, year_or_season := "December 2025",
    text := "Walt Disney World Resort offers Early Entry (30 minutes before official opening) for hotel guests during December 2025." }

/-- The hand-coded Early Park Admission fact. -/
def earlyAdmissionFact (source : String) : AtomicFact :=
  { entity := "Universal Orlando Resort", attr := "early_admission_rule",
    value := "1 hour before official opening for hotel guests",
    source_document := source, year_or_season := "December 2025",
    text := "Universal Orlando Resort offers Early Park Admission (1 hour before official opening) for hotel guests during December 2025." }

/-- The hand-coded LEGOLAND location fact. -/
def legolandLocationFact (source : String) : AtomicFact :=
  { entity := "LEGOLAND Florida", attr := "location",
    value := "Winter Haven, Florida", source_document := source,
    year_or_season := "December 2025",
    text := "LEGOLAND Florida is located in Winter Haven, Florida." }

/-- The hand-coded Peppa Pig location fact. -/
def peppaLocationFact (source : String) : AtomicFact :=
  { entity := "Peppa Pig Theme Park", attr := "location",
    value := "Winter Haven, Florida", source_document := source,
    year_or_season := "December 2025",
    text := "Peppa Pig Theme Park is located in Winter Haven, Florida." }

/-- The generic path's keyword set. -/
def KEYWORDS : List String := ["open", "close", "hour", "time", "located", "entry"]

/-- `any(kw in sent.lower() for kw in KEYWORDS)`. -/
def hasKeyword (s : String) : Bool :=
  KEYWORDS.any (fun kw => subStr kw.toList (pyLower s).toList)

/-- A low-confidence generic fact with entity `"unknown"`. -/
def genericFact (s source : String) : AtomicFact :=
  { entity := "unknown", attr := "generic_factual", value := s,
    source_document := source, year_or_season := "unknown", text := s }

/-- One iteration of the `for park, pattern in park_rules` loop. -/
def hoursStep (t source : String) (acc : List AtomicFact) (pr : String × String) :
    List AtomicFact :=
  match searchCap pr.2.toList t.toList with
  | some cap => acc ++ [mkHoursFact pr.1 (pyStrip (String.mk cap)) source]
  | none => acc

/-- One iteration of the generic path's `for sent in sentences` loop. -/
def genericStep (source : String) (acc : List AtomicFact) (s : String) :
    List AtomicFact :=
  if 20 < s.length ∧ s.length < 120 ∧ hasKeyword s = true then acc ++ [genericFact s source]
  else acc

/-- `extract_atomic_facts(text, source_doc)`. -/
def extract_atomic_facts (text source_doc : String) : List AtomicFact :=
  let t := pyNormWs text
  if subStr "Orlando_Park_Hours_Dez2025".toList source_doc.toList then
    (park_rules.foldl (hoursStep t source_doc) [])
      ++ (if subStr "Early Entry".toList t.toList then [earlyEntryFact source_doc]
          else [])
      ++ (if subStr "Early Park Admission".toList t.toList
          then [earlyAdmissionFact source_doc] else [])
      ++ (if subStr "Winter Haven".toList t.toList
          then [legolandLocationFact source_doc, peppaLocationFact source_doc] else [])
  else
    (sentences t).foldl (genericStep source_doc) []

/-! ## Validator (`10_validate_atomic_core.py`) -/

/-- A parsed JSON fact record: each required key either present (with a
string value) or absent. -/
structure PyDict where
  entity : Option String
  attr : Option String
  value : Option String
  source_document : Option String
  year_or_season : Option String
  text : Option String
deriving DecidableEq

/-- The `Missing field:` errors. `REQUIRED_FIELDS` is a Python `set`, whose
iteration order is unspecified; the literal's order is used here (the
claims depend only on which errors occur, not on their order). -/
def missingErrors (c : PyDict) : List String :=
  (if c.entity.isNone then ["Missing field: entity"] else [])
    ++ (if c.attr.isNone then ["Missing field: attribute"] else [])
    ++ (if c.value.isNone then ["Missing field: value"] else [])
    ++ (if c.source_document.isNone then ["Missing field: source_document"] else [])
    ++ (if c.year_or_season.isNone then ["Missing field: year_or_season"] else [])
    ++ (if c.text.isNone then ["Missing field: text"] else [])

/-- `not isinstance(v, str) or not v.strip()`: a missing (or non-string)
value, or one that is empty after trimming, earns `msg`. -/
def emptyStrError (v : Option String) (msg : String) : List String :=
  match v with
  | none => [msg]
  | some s => if pyStrip s = "" then [msg] else []

/-- `validate_chunk(chunk, idx)`. Faithful to the source including its
slip: after the guarded checks it dereferences `chunk["text"]`
unconditionally, so a record without a `text` key raises `KeyError`
(modelled as `Except.error`) instead of returning the collected errors. -/
def validate_chunk (chunk : PyDict) (idx : Nat) : Except String (List String) :=
  let errors := missingErrors chunk
    ++ emptyStrError chunk.entity "Entity must be a non-empty string"
    ++ emptyStrError chunk.attr "Attribute must be a non-empty string"
    ++ emptyStrError chunk.value "Value must be a non-empty string"
    ++ emptyStrError chunk.text "Text must be a non-empty string"
  match chunk.text with
  | none => Except.error "KeyError: 'text'"
  | some t0 =>
    let text := pyStrip t0
    let errors2 := errors ++
      (if text.toList.count '.' > 1 ∨ text.toList.contains '\n'
          ∨ (pySplit text).length > 40
        then ["Text should be a single factual sentence (not a paragraph or list)"]
        else [])
    Except.ok (errors2.map (fun err => "[Chunk " ++ toString idx ++ "] " ++ err))

/-! ## Vector index model (faiss `IndexFlatL2`) and the two index builders
(`08_rebuild_core_from_atomic.py`, `04_build_auxiliary_layers.py`) -/

/-- An embedding vector; float components are embedded as rationals. -/
abbrev Vec := List ℚ

/-- Squared Euclidean (L2) distance, the metric of `IndexFlatL2`. -/
def sqDist (u v : Vec) : ℚ := ((u.zip v).map (fun p => (p.1 - p.2) ^ 2)).sum

/-- A faiss `IndexFlatL2` after `index.add(embeddings)`: it stores exactly
the added vectors, in order; `ntotal` is their count. -/
structure FaissIndex where
  vectors : List Vec

/-- `index.search(q, k)`: ids of the `k` nearest stored vectors by ascending
L2 distance (ties by insertion order — a stable sort over the id range),
padded with the sentinel `-1` when the index holds fewer than `k`
vectors. -/
def faissSearch (idx : FaissIndex) (q : Vec) (k : Nat) : List Int :=
  let n := idx.vectors.length
  let order := List.insertionSort
    (fun i j => sqDist q (idx.vectors.getD i []) ≤ sqDist q (idx.vectors.getD j []))
    (List.range n)
  (order.take k).map Int.ofNat ++ List.replicate (k - n) (-1)

/-- `rebuild_atomic_core` (08): embeds `fact["text"]` for each fact, writes
the facts as the metadata records in the same order, and adds the
embeddings to a fresh `IndexFlatL2`. Returns (metadata, index); the
embedding model is an external collaborator, passed as `embed`. -/
def rebuild_atomic_core (facts : List AtomicFact) (embed : String → Vec) :
    List AtomicFact × FaissIndex :=
  let texts := facts.map (fun f => f.text)
  let embeddings := texts.map embed
  (facts, ⟨embeddings⟩)

/-- A processed source document (`{"file_name": …, "content": …}`). -/
structure Doc where
  file_name : String
  content : String

/-- A metadata record of an auxiliary layer. -/
structure ChunkMeta where
  source_file : String
  chunk_id : Nat
  text : String
  char_count : Nat

/-- The body of `embed_and_save_layer`'s `for doc in docs` loop: chunk the
document, embed each chunk, and append, per `(i, (chunk, emb))` of
`enumerate(zip(chunks, embeddings))`, one metadata record and one vector to
the accumulated parallel lists. -/
def layerStep (embed : String → Vec) (acc : List ChunkMeta × List Vec) (doc : Doc) :
    List ChunkMeta × List Vec :=
  let chunks := simple_token_split doc.content
  ((chunks.zip (chunks.map embed)).enum.foldl
    (fun acc2 p =>
      (acc2.1 ++ [{ source_file := doc.file_name, chunk_id := p.1, text := p.2.1,
                    char_count := p.2.1.length }],
       acc2.2 ++ [p.2.2])) acc)

/-- `embed_and_save_layer(docs, layer_name, output_dir)` (04): builds the
parallel metadata list and `IndexFlatL2` for one auxiliary layer. -/
def embed_and_save_layer (docs : List Doc) (embed : String → Vec) :
    List ChunkMeta × FaissIndex :=
  let r := docs.foldl (layerStep embed) ([], [])
  (r.1, ⟨r.2⟩)

/-! ## Layer loading (`05_test_layers.py`) and the lightweight retrieve
(`11_answer_with_llm.py`) -/

/-- A parsed metadata record; `text` models `doc.get("text", "")`. -/
structure MetaRec where
  text : String
deriving DecidableEq

/-- The file system seen by `load_index_and_metadata`: `index` models
`faiss.read_index(path)` and `meta` the metadata-file read plus per-line
`json.loads` (`none` = the read raises). -/
structure LayerFS where
  index : String → Option FaissIndex
  meta : String → Option (List MetaRec)

namespace TestLayers

/-- The common tail of `load_index_and_metadata`: read the index file, then
the metadata lines; a failed read raises (modelled as `Except.error`). -/
def loadFrom (fs : LayerFS) (index_path meta_path : String) :
    Except String (FaissIndex × List MetaRec) :=
  match fs.index index_path with
  | none => Except.error ("could not open " ++ index_path)
  | some idx =>
    match fs.meta meta_path with
    | none => Except.error ("could not open " ++ meta_path)
    | some metadata => Except.ok (idx, metadata)

/-- `load_index_and_metadata(layer)` of `05_test_layers.py`: dispatch on the
layer name; an unrecognized name raises
`ValueError("Layer must be: core, context, or strategy")`. -/
def load_index_and_metadata (fs : LayerFS) (layer : String) :
    Except String (FaissIndex × List MetaRec) :=
  if layer = "core" then
    loadFrom fs "data/index/faiss.index" "data/embeddings/metadata.jsonl"
  else if layer = "context" then
    loadFrom fs "data/context_intelligence/context_intelligence.faiss"
      "data/context_intelligence/context_intelligence_metadata.jsonl"
  else if layer = "strategy" then
    loadFrom fs "data/experience_strategy/experience_strategy.faiss"
      "data/experience_strategy/experience_strategy_metadata.jsonl"
  else Except.error "Layer must be: core, context, or strategy"

end TestLayers

/-- A result entry of the lightweight retrieve. -/
structure LiteResult where
  text_preview : String
deriving DecidableEq

/-- The fixed fallback context of `11_answer_with_llm.py`. -/
def fallbackText : String := "General Orlando travel guidance."

namespace AnswerLLM

/-- The `meta_path` dispatch of `retrieve` in `11_answer_with_llm.py`: note
the bare `else:  # strategy` — any unrecognized layer silently gets the
strategy path. -/
def litePath (layer : String) : String :=
  if layer = "core" then "data/embeddings/metadata.jsonl"
  else if layer = "context" then
    "data/context_intelligence/context_intelligence_metadata.jsonl"
  else "data/experience_strategy/experience_strategy_metadata.jsonl"

/-- `doc.get("text", "")[:300] + ("..." if len(doc.get("text", "")) > 300
else "")`. -/
def litePreview (r : MetaRec) : LiteResult :=
  ⟨String.mk (r.text.toList.take 300)
    ++ (if r.text.toList.length > 300 then "..." else "")⟩

/-- The file system seen by the lightweight retrieve: `lines` is the result
of `readlines()` (`none` = the open/read raises); each line is `some` parsed
record or `none` when `json.loads` would raise on it. -/
structure LiteFS where
  lines : String → Option (List (Option MetaRec))

/-- `retrieve(query, layer, top_k)` of `11_answer_with_llm.py`: read the
layer's metadata file and preview its first `min(top_k, len(lines))` lines;
any exception inside the `try` (file read or any `json.loads` of a used
line) yields the fixed single-element fallback context. The query is never
used. -/
def retrieve (fs : LiteFS) (query : String) (layer : String) (top_k : Nat) :
    List LiteResult :=
  let meta_path := litePath layer
  match fs.lines meta_path with
  | none => [⟨fallbackText⟩]
  | some lines =>
    if (lines.take top_k).all (fun l => l.isSome) then
      (lines.take top_k).map (fun l => litePreview (l.getD ⟨""⟩))
    else [⟨fallbackText⟩]

end AnswerLLM

/-! ## Facts about the rounding helper -/

lemma ratFloor_eq_floor (q : ℚ) : Rat.floor q = ⌊q⌋ := by
  refine le_antisymm ?_ ?_
  · exact Int.le_floor.mpr (Rat.le_floor.mp le_rfl)
  · exact Rat.le_floor.mpr (Int.floor_le q)

lemma pyRoundInt_intCast (n : ℤ) : pyRoundInt (n : ℚ) = n := by
  have h : Rat.floor ((n : ℚ)) = n := by
    rw [ratFloor_eq_floor, Int.floor_intCast]
  simp [pyRoundInt, h]

lemma pyRound4_one : pyRound4 1 = 1 := by
  have h : ((1 : ℚ) * 10000) = ((10000 : ℤ) : ℚ) := by norm_num
  rw [pyRound4, h, pyRoundInt_intCast]
  norm_num

lemma pyRound4_zero : pyRound4 0 = 0 := by
  have h : ((0 : ℚ) * 10000) = ((0 : ℤ) : ℚ) := by norm_num
  rw [pyRound4, h, pyRoundInt_intCast]
  norm_num

lemma pyRound4_bounds {x : ℚ} (h0 : 0 ≤ x) (h1 : x ≤ 1) :
    0 ≤ pyRound4 x ∧ pyRound4 x ≤ 1 := by
  have hy0 : (0 : ℚ) ≤ x * 10000 := by positivity
  have hy1 : x * 10000 ≤ 10000 := by nlinarith
  have hfl : (Rat.floor (x * 10000) : ℚ) ≤ x * 10000 := by
    rw [ratFloor_eq_floor]; exact Int.floor_le _
  have hf0 : 0 ≤ Rat.floor (x * 10000) := by
    rw [ratFloor_eq_floor]; exact Int.floor_nonneg.mpr hy0
  have hf1 : Rat.floor (x * 10000) ≤ 10000 := by
    have h2 : (Rat.floor (x * 10000) : ℚ) ≤ 10000 := le_trans hfl hy1
    exact_mod_cast h2
  have hkey : ¬ (x * 10000 - Rat.floor (x * 10000) < 1/2) →
      Rat.floor (x * 10000) + 1 ≤ 10000 := by
    intro hr
    push_neg at hr
    have h3 : (Rat.floor (x * 10000) : ℚ) < 10000 := by linarith
    have h4 : Rat.floor (x * 10000) < 10000 := by exact_mod_cast h3
    omega
  have hn0 : 0 ≤ pyRoundInt (x * 10000) := by
    unfold pyRoundInt
    split_ifs <;> omega
  have hn1 : pyRoundInt (x * 10000) ≤ 10000 := by
    unfold pyRoundInt
    split_ifs with hr1 hr2 hr3
    · exact hf1
    · exact hkey hr1
    · exact hf1
    · exact hkey hr1
  constructor
  · rw [pyRound4]
    apply div_nonneg _ (by norm_num)
    exact_mod_cast hn0
  · rw [pyRound4]
    rw [div_le_one (by norm_num)]
    exact_mod_cast hn1

/-! ## Theorems about the chunker -/

lemma pyRangeStep_mem_of_lt (L step k : Nat) (hstep : 0 < step) (hk : k * step < L) :
    k * step ∈ pyRangeStep L step := by
  have hL : 1 ≤ L := by
    rcases Nat.eq_zero_or_pos L with h | h
    · omega
    · exact h
  have h1 : (L + step - 1) / step = (L - 1) / step + 1 := by
    have h2 : L + step - 1 = (L - 1) + step := by omega
    rw [h2, Nat.add_div_right _ hstep]
  have hk2 : k ≤ (L - 1) / step := by
    have hkL : k * step ≤ L - 1 := by omega
    have := Nat.div_le_div_right (c := step) hkL
    have hks : k ≤ k * step / step := by
      rw [Nat.mul_div_cancel _ hstep]
    omega
  refine List.mem_map.mpr ⟨k, ?_, rfl⟩
  rw [List.mem_range, h1]
  omega

/-- C2: chunker contract. For `window_size > overlap ≥ 0`: a text of at most
`window_size` whitespace tokens yields the single chunk `[text]`; otherwise
the chunks are the joined word windows advancing by `window_size - overlap`,
no window holds more than `window_size` tokens, and every token of the text
occurs in at least one window. -/
theorem C2_chunker_contract (text : String) (cs ov : Nat) (hov : ov < cs) :
    ((pySplit text).length ≤ cs → simple_token_split text cs ov = [text]) ∧
    (cs < (pySplit text).length →
      simple_token_split text cs ov
          = (chunkWords (pySplit text) cs ov).map (fun ws => pyJoin " " ws) ∧
      (∀ c ∈ chunkWords (pySplit text) cs ov, c.length ≤ cs) ∧
      (∀ j, ∀ hj : j < (pySplit text).length,
        ∃ c ∈ chunkWords (pySplit text) cs ov, (pySplit text).get ⟨j, hj⟩ ∈ c)) := by
  constructor
  · intro h
    simp [simple_token_split, h]
  · intro h
    have hnot : ¬ (pySplit text).length ≤ cs := by omega
    refine ⟨by simp [simple_token_split, hnot], ?_, ?_⟩
    · intro c hc
      obtain ⟨i, _, rfl⟩ := List.mem_map.mp hc
      exact List.length_take_le _ _
    · intro j hj
      set words := pySplit text with hw
      set step := cs - ov with hstep
      have hstep1 : 0 < step := by omega
      set k := j / step with hk
      have hks : k * step ≤ j := by
        rw [hk]
        exact Nat.div_mul_le_self j step
      have hmod : j - k * step < step := by
        have h1 := Nat.mod_add_div j step
        have h2 : j % step < step := Nat.mod_lt j hstep1
        have h3 : k * step = step * (j / step) := by
          rw [hk, Nat.mul_comm]
        omega
      have hmem : k * step ∈ pyRangeStep words.length step :=
        pyRangeStep_mem_of_lt words.length step k hstep1 (by omega)
      refine ⟨(words.drop (k * step)).take cs, List.mem_map_of_mem _ hmem, ?_⟩
      have hTl : j - k * step < ((words.drop (k * step)).take cs).length := by
        simp only [List.length_take, List.length_drop]
        omega
      have hEq : ((words.drop (k * step)).take cs).get ⟨j - k * step, hTl⟩
          = words.get ⟨j, hj⟩ := by
        simp only [List.get_eq_getElem, List.getElem_take, List.getElem_drop]
        congr 1
        omega
      rw [← hEq]
      exact List.get_mem _ _ _

/-- Closed witness for `C2_chunker_contract`: the contract evaluated at
concrete texts and parameters. -/
theorem C2_chunker_contract_witness :
    simple_token_split "a b" 3 1 = ["a b"] ∧
    (∃ c ∈ chunkWords (pySplit "a b c d e f g") 3 1,
      (pySplit "a b c d e f g").get ⟨6, by decide⟩ ∈ c) := by
  refine ⟨(C2_chunker_contract "a b" 3 1 (by decide)).1 (by decide), ?_⟩
  exact ((C2_chunker_contract "a b c d e f g" 3 1 (by decide)).2 (by decide)).2.2 6 (by decide)

/-! ## Theorems about the grounding scorer -/

/-- C3: grounding empty-input handling. For every query, context list and
answer: an empty context list gives `0.0`, an empty answer gives `0.0`, an
empty token union gives `0.0` (the guarded branch, so no division by zero
is ever reached), and the score always lies in `[0, 1]`. -/
theorem C3_grounding_empty_inputs (q : String) (ctx : List String) (a : String) :
    check_grounding q [] a = 0 ∧
    check_grounding q ctx "" = 0 ∧
    (pyTokenize (pyJoin " " ctx) ∪ pyTokenize a = ∅ → check_grounding q ctx a = 0) ∧
    (0 ≤ check_grounding q ctx a ∧ check_grounding q ctx a ≤ 1) := by
  refine ⟨by simp [check_grounding], by simp [check_grounding], ?_, ?_⟩
  · intro h
    by_cases hg : ctx = [] ∨ a = "" <;> simp [check_grounding, hg, h]
  · by_cases hg : ctx = [] ∨ a = ""
    · constructor <;> simp [check_grounding, hg]
    · by_cases hu : pyTokenize (pyJoin " " ctx) ∪ pyTokenize a = ∅
      · constructor <;> simp [check_grounding, hg, hu]
      · have hne : (pyTokenize (pyJoin " " ctx) ∪ pyTokenize a).Nonempty :=
          Finset.nonempty_iff_ne_empty.mpr hu
        have hdpos : (0 : ℚ) < ((pyTokenize (pyJoin " " ctx) ∪ pyTokenize a).card : ℚ) := by
          exact_mod_cast Finset.card_pos.mpr hne
        have hsub : ((pyTokenize (pyJoin " " ctx) ∩ pyTokenize a).card : ℚ)
            ≤ ((pyTokenize (pyJoin " " ctx) ∪ pyTokenize a).card : ℚ) := by
          exact_mod_cast Finset.card_le_card Finset.inter_subset_union
        have hx0 : (0 : ℚ) ≤ ((pyTokenize (pyJoin " " ctx) ∩ pyTokenize a).card : ℚ)
            / ((pyTokenize (pyJoin " " ctx) ∪ pyTokenize a).card : ℚ) := by positivity
        have hx1 : ((pyTokenize (pyJoin " " ctx) ∩ pyTokenize a).card : ℚ)
            / ((pyTokenize (pyJoin " " ctx) ∪ pyTokenize a).card : ℚ) ≤ 1 :=
          (div_le_one hdpos).mpr hsub
        have heq : check_grounding q ctx a
            = pyRound4 (((pyTokenize (pyJoin " " ctx) ∩ pyTokenize a).card : ℚ)
              / ((pyTokenize (pyJoin " " ctx) ∪ pyTokenize a).card : ℚ)) := by
          simp [check_grounding, hg, hu]
        rw [heq]
        exact pyRound4_bounds hx0 hx1

/-- Closed witness for `C3_grounding_empty_inputs`: the empty-union case at
`ctx = ["?"]`, `a = "?"` (both tokenize to the empty set) and the range
bounds at a concrete non-degenerate input. -/
theorem C3_grounding_empty_inputs_witness :
    check_grounding "q0" ["?"] "?" = 0 ∧
    (0 ≤ check_grounding "q0" ["alpha"] "beta" ∧
      check_grounding "q0" ["alpha"] "beta" ≤ 1) :=
  ⟨(C3_grounding_empty_inputs "q0" ["?"] "?").2.2.1 (by decide),
    (C3_grounding_empty_inputs "q0" ["alpha"] "beta").2.2.2⟩

/-- C5 counterexample: `"!"` is a non-empty text, yet self-grounding on it
returns `0.0`, not `1.0` (its token set is empty, so the empty-union guard
fires). This refutes the claim that self-grounding is `1.0` for every
non-empty text. -/
theorem C5_counterexample :
    ("!" : String) ≠ "" ∧ check_grounding "q" ["!"] "!" = 0 ∧ (0 : ℚ) ≠ 1 := by
  refine ⟨by decide, by decide, by norm_num⟩

/-- C5 (amended): self-grounding is maximal for every text that produces at
least one token (`check_grounding q [t] t = 1.0`); an answer whose token
set is disjoint from the joined contexts' token set always scores `0.0`.
(The amendment restricts the self-grounding half to texts with a non-empty
token set: a non-empty but token-free text such as `"!"` scores `0.0`.) -/
theorem C5_self_grounding (q t : String) (ht : (pyTokenize t).Nonempty)
    (ctx : List String) (a : String)
    (hdisj : pyTokenize (pyJoin " " ctx) ∩ pyTokenize a = ∅) :
    check_grounding q [t] t = 1 ∧ check_grounding q ctx a = 0 := by
  have htne : t ≠ "" := by
    intro h
    rw [h] at ht
    have hemp : pyTokenize "" = ∅ := by decide
    rw [hemp] at ht
    exact Finset.not_nonempty_empty ht
  constructor
  · have hne : pyTokenize t ≠ ∅ := Finset.nonempty_iff_ne_empty.mp ht
    have hcard : ((pyTokenize t).card : ℚ) ≠ 0 := by
      have := Finset.card_pos.mpr ht
      exact_mod_cast Nat.pos_iff_ne_zero.mp this
    have hjoin : pyJoin " " [t] = t := rfl
    have heq : check_grounding q [t] t
        = pyRound4 (((pyTokenize t).card : ℚ) / ((pyTokenize t).card : ℚ)) := by
      simp [check_grounding, htne, hne, hjoin, div_self hcard]
    rw [heq, div_self hcard]
    exact pyRound4_one
  · by_cases hg : ctx = [] ∨ a = ""
    · simp [check_grounding, hg]
    · by_cases hu : pyTokenize (pyJoin " " ctx) ∪ pyTokenize a = ∅
      · simp [check_grounding, hg, hu]
      · simp [check_grounding, hg, hu, hdisj, pyRound4_zero]

/-- Closed witness for `C5_self_grounding` at concrete inputs. -/
theorem C5_self_grounding_witness :
    check_grounding "q" ["hello world"] "hello world" = 1 ∧
    check_grounding "q" ["abc"] "xyz" = 0 :=
  have h := C5_self_grounding "q" "hello world" (by decide) ["abc"] "xyz" (by decide)
  ⟨h.1, h.2⟩

/-! ## Theorems about the time tokenizer -/

/-- C4 counterexample: on input `"9:9:0000"` the single time match is
`"9:00"`, but after the removal loop the residual text still contains the
matched substring `"9:00"` (deleting the two halves of the text around the
match re-forms it at the seam), and its digits survive as the plain word
token `"900"` — so a matched time substring IS double-counted as a plain
word token. -/
theorem C4_counterexample :
    timeMatches (pyLower "9:9:0000") = ["9:00"] ∧
    subStr "9:00".toList (timeResidual "9:9:0000").toList = true ∧
    "900" ∈ pyTokenize "9:9:0000" := by decide

/-- C4 (amended): every time-of-day match of the lowercased input yields its
normalized `time_…` token in the token set, `'h'` and `':'` separators
normalize to the identical token, and on the spec's example text
`"open 9h00 to 22:00"` the token set is exactly
`{time_9:00, time_22:00, open, to}` — both normalized time tokens are
present and no matched time text survives as plain word tokens there. (The
amendment drops the universal removal guarantee: global substring
replacement can re-form a matched time substring at a deletion seam, as in
`"9:9:0000"`.) -/
theorem C4_time_normalization :
    (∀ text : String, ∀ m ∈ timeMatches (pyLower text), mkTimeToken m ∈ pyTokenize text) ∧
    "time_9:00" ∈ pyTokenize "open 9h00 to 22:00" ∧
    "time_22:00" ∈ pyTokenize "open 9h00 to 22:00" ∧
    mkTimeToken "9h00" = mkTimeToken "9:00" ∧
    pyTokenize "open 9h00 to 22:00" = {"time_9:00", "time_22:00", "open", "to"} := by
  refine ⟨?_, by decide, by decide, by decide, by decide⟩
  intro text m hm
  unfold pyTokenize
  exact Finset.mem_union_left _ (List.mem_toFinset.mpr (List.mem_map_of_mem _ hm))

/-- Closed witness for `C4_time_normalization`: its universal part applied
to the match `"9h00"` of the example text. -/
theorem C4_time_normalization_witness :
    mkTimeToken "9h00" ∈ pyTokenize "open 9h00 to 22:00" :=
  C4_time_normalization.1 "open 9h00 to 22:00" "9h00" (by decide)

/-! ## Theorems about extraction and validation -/

lemma isPre_append (lit rest : List Char) : isPre lit (lit ++ rest) = true := by
  induction lit with
  | nil => simp [isPre]
  | cons c cs ih => simp [isPre, ih]

lemma capAt_of_isPre_false (lit cs : List Char) (h : isPre lit cs = false) :
    capAt lit cs = none := by
  unfold capAt
  rw [h]
  simp

lemma searchCap_of_capAt (lit cs : List Char) (cap : List Char)
    (h : capAt lit cs = some cap) : searchCap lit cs = some cap := by
  cases cs with
  | nil => simpa [searchCap] using h
  | cons c cs' => simp [searchCap, h]

lemma searchCap_append (lit pre rest : List Char)
    (h : ∀ i, i < pre.length → isPre lit ((pre ++ rest).drop i) = false) :
    searchCap lit (pre ++ rest) = searchCap lit rest := by
  induction pre with
  | nil => simp
  | cons c cs ih =>
    have h0 : isPre lit (c :: (cs ++ rest)) = false := by
      simpa using h 0 (by simp)
    have hcap : capAt lit (c :: (cs ++ rest)) = none :=
      capAt_of_isPre_false _ _ h0
    show searchCap lit (c :: (cs ++ rest)) = searchCap lit rest
    rw [searchCap, hcap]
    exact ih (fun i hi => by simpa using h (i + 1) (by simpa using hi))

lemma takeWhile_append_left {α : Type} (p : α → Bool) (xs ys : List α)
    (h : (xs.takeWhile p).length < xs.length) :
    (xs ++ ys).takeWhile p = xs.takeWhile p := by
  induction xs with
  | nil => simp at h
  | cons x xr ih =>
    by_cases hp : p x
    · simp only [List.takeWhile_cons, hp, List.cons_append, if_true] at h ⊢
      simp only [List.length_cons] at h
      rw [ih (by omega)]
    · simp [List.takeWhile_cons, hp]

lemma capAt_self (lit rest : List Char)
    (hne : rest.takeWhile (fun c => c ≠ ',') ≠ []) :
    capAt lit (lit ++ rest) = some (rest.takeWhile (fun c => c ≠ ',')) := by
  simp only [capAt, isPre_append, List.drop_left]
  rw [if_pos trivial, if_neg hne]

lemma mem_hoursFold (t src : String) (rules : List (String × String))
    (acc : List AtomicFact) (x : AtomicFact) (hx : x ∈ acc) :
    x ∈ rules.foldl (hoursStep t src) acc := by
  induction rules generalizing acc with
  | nil => simpa
  | cons r rs ih =>
    rw [List.foldl_cons]
    apply ih
    unfold hoursStep
    cases searchCap r.2.toList t.toList with
    | none => exact hx
    | some cap => exact List.mem_append_left _ hx

lemma mem_genericFold (src : String) (l : List String) (acc : List AtomicFact)
    (x : AtomicFact) :
    x ∈ l.foldl (genericStep src) acc ↔
      x ∈ acc ∨ ∃ s ∈ l, (20 < s.length ∧ s.length < 120 ∧ hasKeyword s = true)
        ∧ x = genericFact s src := by
  induction l generalizing acc with
  | nil => simp
  | cons s rest ih =>
    rw [List.foldl_cons, ih]
    unfold genericStep
    by_cases h : 20 < s.length ∧ s.length < 120 ∧ hasKeyword s = true
    · rw [if_pos h]
      simp only [List.mem_append, List.mem_cons, List.not_mem_nil, or_false]
      constructor
      · rintro ((hx | hx) | ⟨s', hs', hp, hx⟩)
        · exact Or.inl hx
        · exact Or.inr ⟨s, Or.inl rfl, h, hx⟩
        · exact Or.inr ⟨s', Or.inr hs', hp, hx⟩
      · rintro (hx | ⟨s', (rfl | hs'), hp, hx⟩)
        · exact Or.inl (Or.inl hx)
        · exact Or.inl (Or.inr hx)
        · exact Or.inr ⟨s', hs', hp, hx⟩
    · rw [if_neg h]
      simp only [List.mem_cons, List.not_mem_nil, or_false]
      constructor
      · rintro (hx | ⟨s', hs', hp, hx⟩)
        · exact Or.inl hx
        · exact Or.inr ⟨s', Or.inr hs', hp, hx⟩
      · rintro (hx | ⟨s', (rfl | hs'), hp, hx⟩)
        · exact Or.inl hx
        · exact absurd hp h
        · exact Or.inr ⟨s', hs', hp, hx⟩

/-- C6: the validator flags multi-period, over-long, newline-bearing and
missing-`entity` facts and passes a well-formed fact with zero violations,
but it does NOT satisfy the `never throws` contract: a record without a
`text` key raises `KeyError` (the code dereferences `chunk["text"]`
unconditionally after its own `Missing field` check). Evaluations of the
embedded code at each of these inputs. -/
theorem C6_validator_evaluation :
    validate_chunk
        { entity := some "Magic Kingdom", attr := some "operating_hours",
          value := some "9:00 AM - 10:00 PM", source_document := some "doc",
          year_or_season := some "December 2025", text := none } 1
      = Except.error "KeyError: 'text'" ∧
    validate_chunk
        { entity := some "Magic Kingdom", attr := some "operating_hours",
          value := some "9:00 AM - 10:00 PM", source_document := some "doc",
          year_or_season := some "December 2025",
          text := some "Magic Kingdom operating hours during December 2025: 9:00 AM - 10:00 PM." } 1
      = Except.ok [] ∧
    validate_chunk
        { entity := some "E", attr := some "a", value := some "v",
          source_document := some "s", year_or_season := some "y",
          text := some "Two sentences here. And another one." } 2
      = Except.ok ["[Chunk 2] Text should be a single factual sentence (not a paragraph or list)"] ∧
    validate_chunk
        { entity := none, attr := some "a", value := some "v",
          source_document := some "s", year_or_season := some "y",
          text := some "One short sentence." } 3
      = Except.ok ["[Chunk 3] Missing field: entity",
          "[Chunk 3] Entity must be a non-empty string"] ∧
    validate_chunk
        { entity := some "E", attr := some "a", value := some "v",
          source_document := some "s", year_or_season := some "y",
          text := some (pyJoin " " (List.replicate 41 "w")) } 4
      = Except.ok ["[Chunk 4] Text should be a single factual sentence (not a paragraph or list)"] ∧
    validate_chunk
        { entity := some "E", attr := some "a", value := some "v",
          source_document := some "s", year_or_season := some "y",
          text := some "line one\nline two" } 5
      = Except.ok ["[Chunk 5] Text should be a single factual sentence (not a paragraph or list)"] :=
  ⟨rfl, rfl, rfl, rfl, rfl, rfl⟩

/-- C7 counterexample: a document whose whitespace-normalized text contains
the line `"Magic Kingdom: 9:00 AM - 10:00 PM, "` but where an earlier
`"Magic Kingdom: "` occurrence exists. `re.search` takes the leftmost
match, so the emitted fact's value is `"closed"`, and no fact with value
`"9:00 AM - 10:00 PM"` is emitted, refuting the claim as stated. -/
theorem C7_counterexample :
    subStr "Magic Kingdom: 9:00 AM - 10:00 PM, ".toList
        (pyNormWs "Magic Kingdom: closed, Magic Kingdom: 9:00 AM - 10:00 PM, end").toList
      = true ∧
    (extract_atomic_facts "Magic Kingdom: closed, Magic Kingdom: 9:00 AM - 10:00 PM, end"
        "Orlando_Park_Hours_Dez2025").all
      (fun f => f.value != "9:00 AM - 10:00 PM") = true ∧
    mkHoursFact "Magic Kingdom" "closed" "Orlando_Park_Hours_Dez2025"
      ∈ extract_atomic_facts "Magic Kingdom: closed, Magic Kingdom: 9:00 AM - 10:00 PM, end"
        "Orlando_Park_Hours_Dez2025" := by
  decide

/-- C7 (amended): for every document recognized as the canonical hours
document whose whitespace-normalized text contains the line
`"Magic Kingdom: 9:00 AM - 10:00 PM, "` at the FIRST occurrence of
`"Magic Kingdom: "` (the pattern's leftmost match), `extract_atomic_facts`
emits the fact `entity="Magic Kingdom"`, `attribute="operating_hours"`,
`value="9:00 AM - 10:00 PM"`. -/
theorem C7_hours_extraction (text source : String) (pre post : List Char)
    (hsrc : subStr "Orlando_Park_Hours_Dez2025".toList source.toList = true)
    (hsplit : (pyNormWs text).toList
      = pre ++ ("Magic Kingdom: 9:00 AM - 10:00 PM, ".toList ++ post))
    (hfirst : ∀ i, i < pre.length →
      isPre "Magic Kingdom: ".toList ((pyNormWs text).toList.drop i) = false) :
    mkHoursFact "Magic Kingdom" "9:00 AM - 10:00 PM" source
      ∈ extract_atomic_facts text source := by
  have hline : "Magic Kingdom: 9:00 AM - 10:00 PM, ".toList
      = "Magic Kingdom: ".toList ++ "9:00 AM - 10:00 PM, ".toList := by decide
  have hsplit2 : (pyNormWs text).toList
      = pre ++ ("Magic Kingdom: ".toList
          ++ ("9:00 AM - 10:00 PM, ".toList ++ post)) := by
    rw [hsplit, hline, List.append_assoc]
  have htw : ("9:00 AM - 10:00 PM, ".toList ++ post).takeWhile (fun c => c ≠ ',')
      = "9:00 AM - 10:00 PM".toList := by
    rw [takeWhile_append_left _ _ _ (by decide)]
    decide
  have hsearch : searchCap "Magic Kingdom: ".toList (pyNormWs text).toList
      = some ("9:00 AM - 10:00 PM".toList) := by
    rw [hsplit2]
    rw [searchCap_append _ pre _ (fun i hi => by
      have h := hfirst i hi
      rwa [hsplit2] at h)]
    apply searchCap_of_capAt
    rw [capAt_self _ _ (by rw [htw]; decide), htw]
  have hstep : hoursStep (pyNormWs text) source [] ("Magic Kingdom", "Magic Kingdom: ")
      = [mkHoursFact "Magic Kingdom" "9:00 AM - 10:00 PM" source] := by
    unfold hoursStep
    rw [hsearch]
    rfl
  simp only [extract_atomic_facts, hsrc, if_true]
  apply List.mem_append_left
  apply List.mem_append_left
  apply List.mem_append_left
  rw [park_rules, List.foldl_cons, hstep]
  exact mem_hoursFold _ _ _ _ _ (by simp)

/-- Closed witness for `C7_hours_extraction`: the canonical line at the very
start of the document. -/
theorem C7_hours_extraction_witness :
    mkHoursFact "Magic Kingdom" "9:00 AM - 10:00 PM" "Orlando_Park_Hours_Dez2025"
      ∈ extract_atomic_facts "Magic Kingdom: 9:00 AM - 10:00 PM, EPCOT"
        "Orlando_Park_Hours_Dez2025" :=
  C7_hours_extraction "Magic Kingdom: 9:00 AM - 10:00 PM, EPCOT"
    "Orlando_Park_Hours_Dez2025" [] ("EPCOT".toList) (by decide) (by decide)
    (fun i hi => absurd hi (Nat.not_lt_zero i))

/-- C8 counterexample: `"open daily at parks."` is a sentence of exactly 20
characters containing the keyword `"open"`, yet the generic path emits no
fact for it — the code requires length strictly greater than 20, while the
claim's range `[20, 120)` includes 20. -/
theorem C8_counterexample :
    ("open daily at parks." : String).length = 20 ∧
    hasKeyword "open daily at parks." = true ∧
    sentences (pyNormWs "open daily at parks.") = ["open daily at parks."] ∧
    extract_atomic_facts "open daily at parks." "brochure" = [] := by
  decide

/-- C8 (amended): for every source not recognized as the structured hours
document, the generic path emits a fact (entity `"unknown"`) for exactly
those sentences whose character length lies strictly between 20 and 120
(the half-open range `[21, 120)`, not `[20, 120)`) and that contain at
least one keyword. -/
theorem C8_generic_extraction (text source : String)
    (hsrc : subStr "Orlando_Park_Hours_Dez2025".toList source.toList = false)
    (f : AtomicFact) :
    f ∈ extract_atomic_facts text source ↔
      ∃ s ∈ sentences (pyNormWs text),
        (20 < s.length ∧ s.length < 120 ∧ hasKeyword s = true)
          ∧ f = genericFact s source := by
  simp only [extract_atomic_facts, hsrc, Bool.false_eq_true, if_false]
  rw [mem_genericFold]
  simp

/-- Closed witness for `C8_generic_extraction`: a 25-character keyword
sentence is emitted. -/
theorem C8_generic_extraction_witness :
    genericFact "Gates open at nine today." "brochure"
      ∈ extract_atomic_facts "Gates open at nine today." "brochure" :=
  (C8_generic_extraction "Gates open at nine today." "brochure" (by decide) _).mpr
    ⟨"Gates open at nine today.", by decide, by decide, rfl⟩

/-! ## Theorems about index/metadata alignment -/

lemma foldl_pairAppend {β γ δ : Type} (f : β → γ) (g : β → δ) (l : List β)
    (acc : List γ × List δ) :
    l.foldl (fun acc2 p => (acc2.1 ++ [f p], acc2.2 ++ [g p])) acc
      = (acc.1 ++ l.map f, acc.2 ++ l.map g) := by
  induction l generalizing acc with
  | nil => simp
  | cons x xs ih => simp [ih]

lemma zip_self_map {α β : Type} (embed : α → β) (l : List α) :
    l.zip (l.map embed) = l.map (fun c => (c, embed c)) := by
  have h := List.zip_map' id embed l
  simpa using h

lemma layerStep_snd (embed : String → Vec) (doc : Doc) (acc : List ChunkMeta × List Vec)
    (h : acc.2 = acc.1.map (fun m => embed m.text)) :
    (layerStep embed acc doc).2 = (layerStep embed acc doc).1.map (fun m => embed m.text) := by
  unfold layerStep
  rw [foldl_pairAppend
    (f := fun p : Nat × String × Vec =>
      ({ source_file := doc.file_name, chunk_id := p.1, text := p.2.1,
         char_count := p.2.1.length } : ChunkMeta))
    (g := fun p : Nat × String × Vec => p.2.2)]
  simp only [List.map_append, h, List.map_map]
  congr 1
  apply List.map_congr_left
  intro p hp
  rw [zip_self_map, List.enum_map] at hp
  obtain ⟨q, _, rfl⟩ := List.mem_map.mp hp
  rfl

lemma layerFold_snd (embed : String → Vec) (docs : List Doc)
    (acc : List ChunkMeta × List Vec)
    (h : acc.2 = acc.1.map (fun m => embed m.text)) :
    (docs.foldl (layerStep embed) acc).2
      = (docs.foldl (layerStep embed) acc).1.map (fun m => embed m.text) := by
  induction docs generalizing acc with
  | nil => simpa
  | cons d ds ih =>
    rw [List.foldl_cons]
    exact ih _ (layerStep_snd embed d acc h)

lemma faissSearch_valid (idx : FaissIndex) (q : Vec) (k : Nat) (id : Int)
    (hid : id ∈ faissSearch idx q k) (hne : id ≠ -1) :
    0 ≤ id ∧ id.toNat < idx.vectors.length := by
  unfold faissSearch at hid
  rcases List.mem_append.mp hid with h | h
  · obtain ⟨m, hm, rfl⟩ := List.mem_map.mp h
    have hsort : m ∈ List.insertionSort
        (fun i j => sqDist q (idx.vectors.getD i []) ≤ sqDist q (idx.vectors.getD j []))
        (List.range idx.vectors.length) := List.mem_of_mem_take hm
    have hrange : m ∈ List.range idx.vectors.length :=
      ((List.perm_insertionSort _ _).mem_iff).mp hsort
    exact ⟨Int.ofNat_nonneg m, by simpa using List.mem_range.mp hrange⟩
  · exact absurd (List.eq_of_mem_replicate h) hne

/-- C1: index/metadata alignment. For every embedding function and every
build — the atomic core rebuild (08) and an auxiliary layer build (04) —
the metadata record count equals the number of vectors in the index,
vector `i` is the embedding of metadata record `i`'s `text` (both lists are
written from the same in-memory sequence in the same order), and a nearest
neighbor search never returns a non-sentinel id that is not a valid index
into the metadata store. -/
theorem C1_index_metadata_alignment (embed : String → Vec)
    (facts : List AtomicFact) (docs : List Doc) (q : Vec) (k : Nat) :
    ((rebuild_atomic_core facts embed).1.length
        = (rebuild_atomic_core facts embed).2.vectors.length ∧
      (∀ i : Nat, (rebuild_atomic_core facts embed).2.vectors[i]?
          = ((rebuild_atomic_core facts embed).1[i]?).map (fun f => embed f.text)) ∧
      (∀ id ∈ faissSearch (rebuild_atomic_core facts embed).2 q k,
        id ≠ -1 → 0 ≤ id ∧ id.toNat < (rebuild_atomic_core facts embed).1.length)) ∧
    ((embed_and_save_layer docs embed).1.length
        = (embed_and_save_layer docs embed).2.vectors.length ∧
      (∀ i : Nat, (embed_and_save_layer docs embed).2.vectors[i]?
          = ((embed_and_save_layer docs embed).1[i]?).map (fun m => embed m.text)) ∧
      (∀ id ∈ faissSearch (embed_and_save_layer docs embed).2 q k,
        id ≠ -1 → 0 ≤ id ∧ id.toNat < (embed_and_save_layer docs embed).1.length)) := by
  have hatomic : (rebuild_atomic_core facts embed).2.vectors
      = (rebuild_atomic_core facts embed).1.map (fun f => embed f.text) := by
    simp [rebuild_atomic_core, List.map_map]
  have hlayer : (embed_and_save_layer docs embed).2.vectors
      = (embed_and_save_layer docs embed).1.map (fun m => embed m.text) := by
    simp only [embed_and_save_layer]
    exact layerFold_snd embed docs ([], []) rfl
  refine ⟨⟨?_, ?_, ?_⟩, ⟨?_, ?_, ?_⟩⟩
  · rw [hatomic, List.length_map]
  · intro i
    rw [hatomic, List.getElem?_map]
  · intro id hid hne
    have h := faissSearch_valid _ q k id hid hne
    rw [hatomic, List.length_map] at h
    exact h
  · rw [hlayer, List.length_map]
  · intro i
    rw [hlayer, List.getElem?_map]
  · intro id hid hne
    have h := faissSearch_valid _ q k id hid hne
    rw [hlayer, List.length_map] at h
    exact h

/-- Closed witness for `C1_index_metadata_alignment`: a one-fact core
rebuild with a constant embedding; the search returns id 0, which is not
the sentinel and is a valid metadata position. -/
theorem C1_index_metadata_alignment_witness :
    (0 : Int) ≤ 0 ∧
    (0 : Int).toNat
      < (rebuild_atomic_core [(⟨"e", "a", "v", "s", "y", "t"⟩ : AtomicFact)]
          (fun _ => [(0 : ℚ)])).1.length :=
  (C1_index_metadata_alignment (fun _ => [(0 : ℚ)])
    [(⟨"e", "a", "v", "s", "y", "t"⟩ : AtomicFact)] [] [(0 : ℚ)] 1).1.2.2
    0 (by decide) (by decide)

/-! ## Theorems about layer dispatch and the lightweight retrieve -/

/-- C9 counterexample: the lightweight `retrieve` of the LLM answer script
silently maps the unrecognized layer name `"bogus-layer"` to the strategy
metadata path and returns its previews (no error), and it converts a
missing metadata file for a recognized layer into the fixed fallback
context instead of failing. -/
theorem C9_counterexample :
    (AnswerLLM.retrieve
        ⟨fun p =>
          if p = "data/experience_strategy/experience_strategy_metadata.jsonl"
          then some [some ⟨"S"⟩] else none⟩
        "what time" "bogus-layer" 1
      = AnswerLLM.retrieve
        ⟨fun p =>
          if p = "data/experience_strategy/experience_strategy_metadata.jsonl"
          then some [some ⟨"S"⟩] else none⟩
        "what time" "strategy" 1) ∧
    AnswerLLM.retrieve
        ⟨fun p =>
          if p = "data/experience_strategy/experience_strategy_metadata.jsonl"
          then some [some ⟨"S"⟩] else none⟩
        "what time" "bogus-layer" 1 = [⟨"S"⟩] ∧
    AnswerLLM.retrieve ⟨fun _ => none⟩ "what time" "core" 1 = [⟨fallbackText⟩] := by
  refine ⟨rfl, rfl, rfl⟩

/-- C9 (amended): the heavy retrieval path (`load_index_and_metadata` of
`05_test_layers.py`) rejects every unrecognized layer name with the clear
error `"Layer must be: core, context, or strategy"` and propagates a
missing index file as an error; the lightweight `retrieve` of
`11_answer_with_llm.py`, by contrast, silently maps every unrecognized
layer name to the strategy layer (and turns read failures into a fallback
context, see C10). -/
theorem C9_layer_dispatch (lfs : LayerFS) (fs : AnswerLLM.LiteFS) (layer : String)
    (h1 : layer ≠ "core") (h2 : layer ≠ "context") (h3 : layer ≠ "strategy") :
    TestLayers.load_index_and_metadata lfs layer
      = Except.error "Layer must be: core, context, or strategy" ∧
    (∀ q k, AnswerLLM.retrieve fs q layer k = AnswerLLM.retrieve fs q "strategy" k) ∧
    (lfs.index "data/index/faiss.index" = none →
      TestLayers.load_index_and_metadata lfs "core"
        = Except.error "could not open data/index/faiss.index") := by
  refine ⟨?_, ?_, ?_⟩
  · simp [TestLayers.load_index_and_metadata, h1, h2, h3]
  · intro q k
    have hp : AnswerLLM.litePath layer = AnswerLLM.litePath "strategy" := by
      simp [AnswerLLM.litePath, h1, h2]
    simp [AnswerLLM.retrieve, hp]
  · intro hmiss
    simp [TestLayers.load_index_and_metadata, TestLayers.loadFrom, hmiss]

/-- Closed witness for `C9_layer_dispatch` at the layer name `"bogus"`. -/
theorem C9_layer_dispatch_witness :
    TestLayers.load_index_and_metadata ⟨fun _ => none, fun _ => none⟩ "bogus"
      = Except.error "Layer must be: core, context, or strategy" :=
  (C9_layer_dispatch ⟨fun _ => none, fun _ => none⟩ ⟨fun _ => none⟩ "bogus"
    (by decide) (by decide) (by decide)).1

/-- C10: the lightweight `retrieve` of the LLM answer script performs no
embedding or similarity search — its result is independent of the query
text; it returns the previews of the first `top_k` metadata lines of the
layer's file, and on any file-read failure it returns the fixed
single-element fallback context instead of raising. -/
theorem C10_lite_retrieve (fs : AnswerLLM.LiteFS) (q1 q2 layer : String) (k : Nat) :
    AnswerLLM.retrieve fs q1 layer k = AnswerLLM.retrieve fs q2 layer k ∧
    (fs.lines (AnswerLLM.litePath layer) = none →
      AnswerLLM.retrieve fs q1 layer k = [⟨fallbackText⟩]) ∧
    (∀ lines, fs.lines (AnswerLLM.litePath layer) = some lines →
      (lines.take k).all (fun l => l.isSome) = true →
      AnswerLLM.retrieve fs q1 layer k
        = (lines.take k).map (fun l => AnswerLLM.litePreview (l.getD ⟨""⟩))) := by
  refine ⟨rfl, ?_, ?_⟩
  · intro h
    simp [AnswerLLM.retrieve, h]
  · intro lines h hall
    simp [AnswerLLM.retrieve, h, hall]

/-- Closed witness for `C10_lite_retrieve`: the fallback on a missing file
and the first-two-lines previews on a present file. -/
theorem C10_lite_retrieve_witness :
    AnswerLLM.retrieve ⟨fun _ => none⟩ "a" "core" 2 = [⟨fallbackText⟩] ∧
    AnswerLLM.retrieve ⟨fun _ => some [some ⟨"t1"⟩, some ⟨"t2"⟩, some ⟨"t3"⟩]⟩
        "a" "core" 2
      = [AnswerLLM.litePreview ⟨"t1"⟩, AnswerLLM.litePreview ⟨"t2"⟩] := by
  constructor
  · exact (C10_lite_retrieve ⟨fun _ => none⟩ "a" "b" "core" 2).2.1 rfl
  · have h := (C10_lite_retrieve
      ⟨fun _ => some [some ⟨"t1"⟩, some ⟨"t2"⟩, some ⟨"t3"⟩]⟩ "a" "b" "core" 2).2.2
      [some ⟨"t1"⟩, some ⟨"t2"⟩, some ⟨"t3"⟩] rfl (by decide)
    rw [h]
    rfl

end Orlando
